import Mathlib

/-!
Shallow embedding of the revtc EVTC decoder (src/evtc.rs, src/bossdata.rs).

Bytes are modelled as `List Nat` (each element one byte, little-endian
multi-byte integers).  The sequential `Read` cursor of the Rust code is
modelled by explicit state passing: every reader takes the remaining byte
list and returns the parsed value together with the bytes left, or a
`DecodeError`.  Rust `Vec` values whose capacity is observable through the
source (`skills` and `combat_log`, which the source pins to `len == cap`
via `shrink_to_fit`, and whose `clear` keeps the capacity) are modelled by
`RVec`, a list together with its capacity.
-/

namespace Revtc

/-- Decode-level errors of `read_encounter`: `truncatedInput` stands for the
io errors of `read_exact`/`read_u32` (stream ended early), `badMagic` for
the "Invalid magic number" error of `read_header`, `malformedEventLog` for
the "Combat log length is not a multiple of CbtEvent" error of `read_log`. -/
inductive DecodeError
  | truncatedInput
  | badMagic
  | malformedEventLog
deriving DecidableEq, Repr

/-- Little-endian value of a byte list: first byte is least significant. -/
def readLE (bs : List Nat) : Nat :=
  bs.foldr (fun b acc => b + 256 * acc) 0

/-- `Read::read_exact` into a buffer of `n` bytes: yields the first `n`
bytes and the rest, or fails when fewer than `n` bytes remain. -/
def readExact (n : Nat) (bs : List Nat) : Except DecodeError (List Nat × List Nat) :=
  if n ≤ bs.length then .ok (bs.take n, bs.drop n) else .error .truncatedInput

/-- `ReadBytesExt::read_u32::<LittleEndian>`. -/
def read_u32 (bs : List Nat) : Except DecodeError (Nat × List Nat) := do
  let (buf, rest) ← readExact 4 bs
  .ok (readLE buf, rest)

/-- Interpretation of 4 little-endian bytes as Rust `i32` (`EvtcSkill.id`,
`CbtEvent.value`, `CbtEvent.buff_dmg`). -/
def toI32 (v : Nat) : Int :=
  if v < 2147483648 then (v : Int) else (v : Int) - 4294967296

/-- UTF-8 validation and decoding to a list of scalar values, following the
byte patterns accepted by Rust `core::str` validation (Unicode table 3-7):
returns `none` exactly when the byte list is not valid UTF-8.  This models
`String::from_utf8` / `str::from_utf8`; decoded strings are kept as lists
of unicode scalar values. -/
def utf8Decode : List Nat → Option (List Nat)
  | [] => some []
  | b :: rest =>
    if b < 128 then (utf8Decode rest).map (b :: ·)
    else if 194 ≤ b ∧ b ≤ 223 then
      match rest with
      | b1 :: rest1 =>
        if 128 ≤ b1 ∧ b1 ≤ 191 then
          (utf8Decode rest1).map (((b - 192) * 64 + (b1 - 128)) :: ·)
        else none
      | [] => none
    else if 224 ≤ b ∧ b ≤ 239 then
      match rest with
      | b1 :: b2 :: rest2 =>
        let lo1 : Nat := if b = 224 then 160 else 128
        let hi1 : Nat := if b = 237 then 159 else 191
        if (lo1 ≤ b1 ∧ b1 ≤ hi1) ∧ (128 ≤ b2 ∧ b2 ≤ 191) then
          (utf8Decode rest2).map
            (((b - 224) * 4096 + (b1 - 128) * 64 + (b2 - 128)) :: ·)
        else none
      | _ => none
    else if 240 ≤ b ∧ b ≤ 244 then
      match rest with
      | b1 :: b2 :: b3 :: rest3 =>
        let lo1 : Nat := if b = 240 then 144 else 128
        let hi1 : Nat := if b = 244 then 143 else 191
        if (lo1 ≤ b1 ∧ b1 ≤ hi1) ∧ (128 ≤ b2 ∧ b2 ≤ 191) ∧ (128 ≤ b3 ∧ b3 ≤ 191) then
          (utf8Decode rest3).map
            (((b - 240) * 262144 + (b1 - 128) * 4096 + (b2 - 128) * 64 + (b3 - 128)) :: ·)
        else none
      | _ => none
    else none

/-- The header produced by `read_header` (struct `Header`): `version` is the
decoded 8-byte version text, kept as unicode scalar values. -/
structure Header where
  version : List Nat
  revision : Nat
  boss_id : Nat
deriving DecidableEq, Repr

/-- `read_header`: reads the 16 packed bytes of `RawHeader`
(magic at offsets 0..3, version at 4..11, revision at 12, boss_id at 13..14,
one unused byte at 15), fails on a wrong magic, and decodes the version
bytes with `str::from_utf8(..).unwrap_or("")` — the empty string when the
bytes are not valid UTF-8. -/
def read_header (bs : List Nat) : Except DecodeError (Header × List Nat) := do
  let (buf, rest) ← readExact 16 bs
  if buf.take 4 ≠ [69, 86, 84, 67] then
    .error .badMagic
  else
    .ok ({ version := (utf8Decode ((buf.drop 4).take 8)).getD []
         , revision := readLE ((buf.drop 12).take 1)
         , boss_id := readLE ((buf.drop 13).take 2) }, rest)

/-- The nine base professions plus the `Unknown` sentinel (bossdata.rs). -/
inductive Profession
  | guardian | warrior | engineer | ranger | thief
  | elementalist | mesmer | necromancer | revenant | unknown
deriving DecidableEq, Repr

/-- `Profession::from_evtc`: `from_u32` on the declared discriminants
(`Guardian = 1` .. `Revenant = 9`, `Unknown = 0`), defaulting to `Unknown`. -/
def Profession.from_evtc (id : Nat) : Profession :=
  match id with
  | 0 => .unknown
  | 1 => .guardian
  | 2 => .warrior
  | 3 => .engineer
  | 4 => .ranger
  | 5 => .thief
  | 6 => .elementalist
  | 7 => .mesmer
  | 8 => .necromancer
  | 9 => .revenant
  | _ => .unknown

/-- All elite specializations plus the `Unknown` sentinel (bossdata.rs). -/
inductive EliteSpec
  | dragonhunter | berserker | scrapper | druid | daredevil
  | tempest | chronomancer | reaper | herald
  | firebrand | spellbreaker | holosmith | soulbeast | deadeye
  | weaver | mirage | scourge | renegade
  | willbender | bladesworn | untamed | specter | catalyst
  | virtuoso | harbinger | vindicator | mechanist | unknown
deriving DecidableEq, Repr

/-- `EliteSpec::from_evtc`: `from_u32` on the declared discriminants,
defaulting to `Unknown`. -/
def EliteSpec.from_evtc (id : Nat) : EliteSpec :=
  match id with
  | 0 => .unknown
  | 27 => .dragonhunter
  | 18 => .berserker
  | 43 => .scrapper
  | 5 => .druid
  | 7 => .daredevil
  | 48 => .tempest
  | 40 => .chronomancer
  | 34 => .reaper
  | 52 => .herald
  | 62 => .firebrand
  | 61 => .spellbreaker
  | 57 => .holosmith
  | 55 => .soulbeast
  | 58 => .deadeye
  | 56 => .weaver
  | 59 => .mirage
  | 60 => .scourge
  | 63 => .renegade
  | 65 => .willbender
  | 68 => .bladesworn
  | 72 => .untamed
  | 71 => .specter
  | 67 => .catalyst
  | 66 => .virtuoso
  | 64 => .harbinger
  | 69 => .vindicator
  | 70 => .mechanist
  | _ => .unknown

/-- Raw agent record (struct `EvtcAgent`, `#[repr(C)]`): `addr` at byte
offset 0, `prof` at 8, `is_elite` at 12, the six u16 stat fields at
16/18/20/22/24/26, the 64-byte `name` buffer at 28, and 4 trailing padding
bytes, so `mem::size_of::<EvtcAgent>() = 96`. -/
structure EvtcAgent where
  addr : Nat
  prof : Nat
  is_elite : Nat
  toughness : Nat
  concentration : Nat
  healing : Nat
  hitbox_width : Nat
  condition : Nat
  hitbox_height : Nat
  name : List Nat
deriving DecidableEq, Repr

/-- Field extraction of one 96-byte `EvtcAgent` record at the `#[repr(C)]`
offsets given on `EvtcAgent`. -/
def parseEvtcAgent (bs : List Nat) : EvtcAgent :=
  { addr := readLE (bs.take 8)
  , prof := readLE ((bs.drop 8).take 4)
  , is_elite := readLE ((bs.drop 12).take 4)
  , toughness := readLE ((bs.drop 16).take 2)
  , concentration := readLE ((bs.drop 18).take 2)
  , healing := readLE ((bs.drop 20).take 2)
  , hitbox_width := readLE ((bs.drop 22).take 2)
  , condition := readLE ((bs.drop 24).take 2)
  , hitbox_height := readLE ((bs.drop 26).take 2)
  , name := (bs.drop 28).take 64 }

/-- A decoded player agent (struct `Agent`); the three name strings are
kept as lists of unicode scalar values. -/
structure Agent where
  addr : Nat
  prof : Profession
  elite_spec : EliteSpec
  character_name : List Nat
  account_name : List Nat
  subgroup : List Nat
deriving DecidableEq, Repr

/-- Errors of `TryFrom<EvtcAgent> for Agent`: `notAPlayer` is the
`"Not a player agent"` bail, `invalidText` the `FromUtf8Error` of any of
the three `String::from_utf8` calls. -/
inductive AgentError
  | notAPlayer
  | invalidText
deriving DecidableEq, Repr

/-- One `take_while(|&&c| c != 0)` step of the name-buffer iterator: the
bytes before the first null byte. -/
def segHead (l : List Nat) : List Nat := l.takeWhile (· != 0)

/-- The state of the name-buffer iterator after one
`take_while(|&&c| c != 0)` step: `take_while` also consumes the null byte
that stopped it (or exhausts the iterator when no null remains). -/
def segTail (l : List Nat) : List Nat := (l.dropWhile (· != 0)).drop 1

/-- `TryFrom<EvtcAgent> for Agent::try_from`: for a player record
(`is_elite != 0xFFFFFFFF`) it splits the 64-byte name buffer into three
null-terminated segments with a shared iterator, UTF-8 decodes each
(failing with `invalidText` otherwise), and strips the leading colons of
the account segment with `trim_start_matches(':')` (58 is the colon). -/
def agentTryFrom (raw : EvtcAgent) : Except AgentError Agent :=
  if raw.is_elite ≠ 4294967295 then
    match utf8Decode (segHead raw.name),
          utf8Decode (segHead (segTail raw.name)),
          utf8Decode (segHead (segTail (segTail raw.name))) with
    | some cn, some an, some sg =>
      .ok { addr := raw.addr
          , prof := Profession.from_evtc raw.prof
          , elite_spec := EliteSpec.from_evtc raw.is_elite
          , character_name := cn
          , account_name := an.dropWhile (· == 58)
          , subgroup := sg }
    | _, _, _ => .error .invalidText
  else
    .error .notAPlayer

/-- The per-record body of the `read_agents` loop: the record is kept only
when `is_elite != 0xFFFFFFFF` and `try_into()` succeeds
(`if let Ok(a) = agent.try_into()` — a failing conversion is silently
dropped, not an error). -/
def processAgent (raw : EvtcAgent) : Option Agent :=
  if raw.is_elite ≠ 4294967295 then (agentTryFrom raw).toOption else none

/-- `read_agents`: reads `count` raw 96-byte agent records in order, keeps
the players whose conversion succeeds, drops the rest. -/
def read_agents (count : Nat) (bs : List Nat) : Except DecodeError (List Agent × List Nat) :=
  match count with
  | 0 => .ok ([], bs)
  | n + 1 => do
    let (buf, rest) ← readExact 96 bs
    let (agents, rest2) ← read_agents n rest
    match processAgent (parseEvtcAgent buf) with
    | some a => .ok (a :: agents, rest2)
    | none => .ok (agents, rest2)

/-- Raw skill record (struct `EvtcSkill`, `#[repr(C, packed)]`): `id` at
byte offset 0 (i32), the 64-byte `name` buffer at 4; 68 bytes total. -/
structure EvtcSkill where
  id : Int
  name : List Nat
deriving DecidableEq, Repr

/-- Field extraction of one 68-byte `EvtcSkill` record. -/
def parseEvtcSkill (bs : List Nat) : EvtcSkill :=
  { id := toI32 (readLE (bs.take 4))
  , name := (bs.drop 4).take 64 }

/-- Reinterpretation of `count * 68` raw bytes as `count` skill records
(`Vec::from_raw_parts` in `read_skills`). -/
def chunkSkills : Nat → List Nat → List EvtcSkill
  | 0, _ => []
  | n + 1, bs => parseEvtcSkill (bs.take 68) :: chunkSkills n (bs.drop 68)

/-- A Rust `Vec` whose capacity the source makes observable: the element
list together with the capacity of the backing allocation. -/
structure RVec (α : Type) where
  data : List α
  cap : Nat
deriving DecidableEq, Repr

/-- `Vec::clear`: drops the elements but keeps the backing allocation
(the capacity is unchanged). -/
def RVec.clear {α : Type} (v : RVec α) : RVec α :=
  { data := [], cap := v.cap }

/-- `read_skills`: reads `count * size_of::<EvtcSkill>()` bytes
(`size_of = 68`), calls `shrink_to_fit` (so capacity = length), and
reinterprets the buffer as `count` skill records; the resulting vector has
`len = cap = count`. -/
def read_skills (count : Nat) (bs : List Nat) : Except DecodeError (RVec EvtcSkill × List Nat) := do
  let (buf, rest) ← readExact (count * 68) bs
  .ok ({ data := chunkSkills count buf, cap := count }, rest)

/-- Combat event record (struct `CbtEvent`, `#[repr(C, packed)]`): 64
bytes, fields at offsets 0 (time, u64), 8 (src_agent, u64), 16 (dst_agent,
u64), 24 (value, i32), 28 (buff_dmg, i32), 32 (overstack_value, u32), 36
(skillid, u32), 40/42/44/46 (the four u16 instance ids), then the sixteen
single bytes 48..63. -/
structure CbtEvent where
  time : Nat
  src_agent : Nat
  dst_agent : Nat
  value : Int
  buff_dmg : Int
  overstack_value : Nat
  skillid : Nat
  src_instid : Nat
  dst_instid : Nat
  src_master_instid : Nat
  dst_master_instid : Nat
  iff : Nat
  buff : Nat
  result : Nat
  is_activation : Nat
  is_buffremove : Nat
  is_ninety : Nat
  is_fifty : Nat
  is_moving : Nat
  is_statechange : Nat
  is_flanking : Nat
  is_shields : Nat
  is_offcycle : Nat
  pad61 : Nat
  pad62 : Nat
  pad63 : Nat
  pad64 : Nat
deriving DecidableEq, Repr

/-- Field extraction of one 64-byte `CbtEvent` record at the packed
offsets given on `CbtEvent`. -/
def parseCbtEvent (bs : List Nat) : CbtEvent :=
  { time := readLE (bs.take 8)
  , src_agent := readLE ((bs.drop 8).take 8)
  , dst_agent := readLE ((bs.drop 16).take 8)
  , value := toI32 (readLE ((bs.drop 24).take 4))
  , buff_dmg := toI32 (readLE ((bs.drop 28).take 4))
  , overstack_value := readLE ((bs.drop 32).take 4)
  , skillid := readLE ((bs.drop 36).take 4)
  , src_instid := readLE ((bs.drop 40).take 2)
  , dst_instid := readLE ((bs.drop 42).take 2)
  , src_master_instid := readLE ((bs.drop 44).take 2)
  , dst_master_instid := readLE ((bs.drop 46).take 2)
  , iff := readLE ((bs.drop 48).take 1)
  , buff := readLE ((bs.drop 49).take 1)
  , result := readLE ((bs.drop 50).take 1)
  , is_activation := readLE ((bs.drop 51).take 1)
  , is_buffremove := readLE ((bs.drop 52).take 1)
  , is_ninety := readLE ((bs.drop 53).take 1)
  , is_fifty := readLE ((bs.drop 54).take 1)
  , is_moving := readLE ((bs.drop 55).take 1)
  , is_statechange := readLE ((bs.drop 56).take 1)
  , is_flanking := readLE ((bs.drop 57).take 1)
  , is_shields := readLE ((bs.drop 58).take 1)
  , is_offcycle := readLE ((bs.drop 59).take 1)
  , pad61 := readLE ((bs.drop 60).take 1)
  , pad62 := readLE ((bs.drop 61).take 1)
  , pad63 := readLE ((bs.drop 62).take 1)
  , pad64 := readLE ((bs.drop 63).take 1) }

/-- Reinterpretation of `count * 64` raw bytes as `count` combat events
(`Vec::from_raw_parts` in `read_log`). -/
def chunkEvents : Nat → List Nat → List CbtEvent
  | 0, _ => []
  | n + 1, bs => parseCbtEvent (bs.take 64) :: chunkEvents n (bs.drop 64)

/-- `read_log`: `read_to_end` consumes every remaining byte; the length
must be a multiple of `size_of::<CbtEvent>() = 64`, else the decode fails;
`shrink_to_fit` pins capacity = length, so the resulting vector has
`len = cap =` byte length / 64. -/
def read_log (bs : List Nat) : Except DecodeError (RVec CbtEvent × List Nat) :=
  if bs.length % 64 ≠ 0 then
    .error .malformedEventLog
  else
    .ok ({ data := chunkEvents (bs.length / 64) bs, cap := bs.length / 64 }, [])

/-- The `#[repr(u32)]` enum `CbtStateChange`, variants in declaration
order with discriminants starting at `None = 0`. -/
inductive CbtStateChange
  | none | enterCombat | exitCombat | changeUp | changeDead | changeDown
  | spawn | despawn | healthPctUpdate | sqCombatStart | logEnd | weapSwap
  | maxHealthUpdate | pointOfView | language | gwBuild | shardId | reward
  | buffInitial | position | velocity | facing | teamChange | attackTarget
  | targetable | mapId | replInfo | stackActive | stackReset | guild
  | buffInfo | buffFormula | skillInfo | skillTiming | breakbarState
  | breakbarPercent | integrity | marker | barrierPctUpdate | statReset
  | extension | apiDelayed | instanceStart | rateHealth | last90BeforeDown
  | effect | idToGuid | logNpcUpdate | idleEvent | extensionCombat
  | fractalScale | effect2 | ruleset | squadMarker | arcBuild | glider
  | stunBreak | unknown
deriving DecidableEq, Repr

/-- `CbtStateChange::X as u32 as u8`: the `#[repr(u32)]` discriminant is
the declaration index, truncated to a byte. -/
def CbtStateChange.code (c : CbtStateChange) : Nat :=
  CbtStateChange.toCtorIdx c % 256

/-- `find_pov`: scans the events in stored order; at the first event whose
`is_statechange` equals `CbtStateChange::PointOfView as u32 as u8` it
returns the first agent whose `addr` equals that event `src_agent`
(`None` when no agent matches), and returns `None` when no such event
exists. -/
def find_pov (evts : List CbtEvent) (agents : List Agent) : Option Agent :=
  match evts with
  | [] => Option.none
  | evt :: rest =>
    if evt.is_statechange = CbtStateChange.pointOfView.code then
      agents.find? (fun a => a.addr == evt.src_agent)
    else
      find_pov rest agents

/-- The decoded encounter (struct `Encounter`): `skills` and `combat_log`
are capacity-carrying vectors (see `RVec`). -/
structure Encounter where
  header : Header
  agents : List Agent
  skills : RVec EvtcSkill
  combat_log : RVec CbtEvent
  pov : Option Agent
deriving DecidableEq, Repr

/-- `Encounter::shrink`: `self.combat_log.clear(); self.skills.clear();`
— both vectors are emptied in place via `Vec::clear`. -/
def Encounter.shrink (e : Encounter) : Encounter :=
  { e with combat_log := e.combat_log.clear, skills := e.skills.clear }

/-- `read_encounter`: header, little-endian u32 agent count, agent table,
little-endian u32 skill count, skill table, event tail, then POV
resolution over the decoded events and agents. -/
def read_encounter (bs : List Nat) : Except DecodeError Encounter := do
  let (header, r1) ← read_header bs
  let (agent_count, r2) ← read_u32 r1
  let (agents, r3) ← read_agents agent_count r2
  let (skill_count, r4) ← read_u32 r3
  let (skills, r5) ← read_skills skill_count r4
  let (combat_log, _r6) ← read_log r5
  let pov := find_pov combat_log.data agents
  .ok { header := header
      , agents := agents
      , skills := skills
      , combat_log := combat_log
      , pov := pov }

/-- Fuel-driven worker for `utf8LossyDecodeSpec`: every step consumes at
least one byte, so any fuel of at least the list length is enough. -/
def utf8LossyAux : Nat → List Nat → List Nat
  | 0, _ => []
  | _ + 1, [] => []
  | fuel + 1, b :: rest =>
    if b < 128 then b :: utf8LossyAux fuel rest
    else if 194 ≤ b ∧ b ≤ 223 then
      match rest with
      | b1 :: rest1 =>
        if 128 ≤ b1 ∧ b1 ≤ 191 then
          ((b - 192) * 64 + (b1 - 128)) :: utf8LossyAux fuel rest1
        else 65533 :: utf8LossyAux fuel rest
      | [] => [65533]
    else if 224 ≤ b ∧ b ≤ 239 then
      match rest with
      | b1 :: b2 :: rest2 =>
        let lo1 : Nat := if b = 224 then 160 else 128
        let hi1 : Nat := if b = 237 then 159 else 191
        if (lo1 ≤ b1 ∧ b1 ≤ hi1) ∧ (128 ≤ b2 ∧ b2 ≤ 191) then
          ((b - 224) * 4096 + (b1 - 128) * 64 + (b2 - 128)) :: utf8LossyAux fuel rest2
        else 65533 :: utf8LossyAux fuel rest
      | _ => 65533 :: utf8LossyAux fuel rest
    else if 240 ≤ b ∧ b ≤ 244 then
      match rest with
      | b1 :: b2 :: b3 :: rest3 =>
        let lo1 : Nat := if b = 240 then 144 else 128
        let hi1 : Nat := if b = 244 then 143 else 191
        if (lo1 ≤ b1 ∧ b1 ≤ hi1) ∧ (128 ≤ b2 ∧ b2 ≤ 191) ∧ (128 ≤ b3 ∧ b3 ≤ 191) then
          ((b - 240) * 262144 + (b1 - 128) * 4096 + (b2 - 128) * 64 + (b3 - 128))
            :: utf8LossyAux fuel rest3
        else 65533 :: utf8LossyAux fuel rest
      | _ => 65533 :: utf8LossyAux fuel rest
    else 65533 :: utf8LossyAux fuel rest

/-- The version decoding the specification describes (not the one the code
performs): lossy UTF-8 decoding of the raw bytes, where invalid sequences
are replaced by U+FFFD (65533) instead of failing.  Stated from the
specification wording for comparison with `read_header`. -/
def utf8LossyDecodeSpec (l : List Nat) : List Nat := utf8LossyAux l.length l

/-! Concrete inputs used by the witnesses and counterexamples below:
a well-formed 16-byte header, player and non-player agent records, and
small full files. -/

/-- A well-formed header: magic `EVTC`, version text `00000000`
(eight bytes 48), revision 1, boss id 0, one unused byte. -/
def headerBytes : List Nat :=
  [69, 86, 84, 67] ++ List.replicate 8 48 ++ [1] ++ [0, 0] ++ [0]

/-- The decoded form of `headerBytes`. -/
def demoHeader : Header :=
  { version := List.replicate 8 48, revision := 1, boss_id := 0 }

/-- A 96-byte player agent record: addr 5, prof 1, is_elite 0, zero
stats, name buffer `A\0:B\01\0` padded with zeros. -/
def goodAgentRec : List Nat :=
  [5, 0, 0, 0, 0, 0, 0, 0] ++ [1, 0, 0, 0] ++ [0, 0, 0, 0] ++ List.replicate 12 0 ++
    ([65, 0, 58, 66, 0, 49, 0] ++ List.replicate 57 0) ++ [0, 0, 0, 0]

/-- The decoded form of `goodAgentRec`: account segment `:B` with the
leading colon stripped. -/
def demoAgent : Agent :=
  { addr := 5, prof := .guardian, elite_spec := .unknown
  , character_name := [65], account_name := [66], subgroup := [49] }

/-- A second 96-byte player agent record, addr 6, name `C\0:D\02\0`. -/
def goodAgentRec2 : List Nat :=
  [6, 0, 0, 0, 0, 0, 0, 0] ++ [1, 0, 0, 0] ++ [0, 0, 0, 0] ++ List.replicate 12 0 ++
    ([67, 0, 58, 68, 0, 50, 0] ++ List.replicate 57 0) ++ [0, 0, 0, 0]

/-- The decoded form of `goodAgentRec2`. -/
def demoAgent2 : Agent :=
  { addr := 6, prof := .guardian, elite_spec := .unknown
  , character_name := [67], account_name := [68], subgroup := [50] }

/-- A 96-byte agent record whose character-name segment is the single
byte 255 — not valid UTF-8. -/
def badNameAgentRec : List Nat :=
  [5, 0, 0, 0, 0, 0, 0, 0] ++ [1, 0, 0, 0] ++ [0, 0, 0, 0] ++ List.replicate 12 0 ++
    ([255, 0, 58, 66, 0, 49, 0] ++ List.replicate 57 0) ++ [0, 0, 0, 0]

/-- A 96-byte non-player agent record: `is_elite` is the sentinel
`0xFFFFFFFF`. -/
def sentinelAgentRec : List Nat :=
  [5, 0, 0, 0, 0, 0, 0, 0] ++ [1, 0, 0, 0] ++ [255, 255, 255, 255] ++ List.replicate 12 0 ++
    ([65, 0, 58, 66, 0, 49, 0] ++ List.replicate 57 0) ++ [0, 0, 0, 0]

/-- An agent record whose account segment `::B` starts with two colons
(name buffer `A\0::B\01\0`). -/
def doubleColonRec : EvtcAgent :=
  parseEvtcAgent ([5, 0, 0, 0, 0, 0, 0, 0] ++ [1, 0, 0, 0] ++ [0, 0, 0, 0] ++
    List.replicate 12 0 ++ ([65, 0, 58, 58, 66, 0, 49, 0] ++ List.replicate 56 0) ++ [0, 0, 0, 0])

/-- A 64-byte POV combat event: `src_agent` 5 (offset 8),
`is_statechange` 13 (offset 56). -/
def povEventRec : List Nat :=
  List.replicate 8 0 ++ [5, 0, 0, 0, 0, 0, 0, 0] ++ List.replicate 40 0 ++
    [13] ++ List.replicate 7 0

/-- The decoded form of `povEventRec`. -/
def povEvent : CbtEvent := parseCbtEvent povEventRec

/-- The decoded form of 64 zero bytes (one all-zero combat event). -/
def zeroEvent : CbtEvent := parseCbtEvent (List.replicate 64 0)

/-- The decoded form of 68 zero bytes (one all-zero skill record). -/
def zeroSkill : EvtcSkill := parseEvtcSkill (List.replicate 68 0)

/-- A full file with no agents, one all-zero skill and one all-zero
event. -/
def c2Input : List Nat :=
  headerBytes ++ [0, 0, 0, 0] ++ [1, 0, 0, 0] ++ List.replicate 68 0 ++ List.replicate 64 0

/-- The decoded form of `c2Input`. -/
def c2Enc : Encounter :=
  { header := demoHeader, agents := []
  , skills := { data := [zeroSkill], cap := 1 }
  , combat_log := { data := [zeroEvent], cap := 1 }
  , pov := Option.none }

/-- A full file whose single agent record has an invalid UTF-8 name, no
skills and no events. -/
def c1Input : List Nat :=
  headerBytes ++ [1, 0, 0, 0] ++ badNameAgentRec ++ [0, 0, 0, 0]

/-- The decoded form of `c1Input`: the bad-name agent is skipped. -/
def c1Enc : Encounter :=
  { header := demoHeader, agents := []
  , skills := { data := [], cap := 0 }
  , combat_log := { data := [], cap := 0 }
  , pov := Option.none }

/-- A full file with one player agent, no skills and one POV event
pointing at that agent. -/
def c9Input : List Nat :=
  headerBytes ++ [1, 0, 0, 0] ++ goodAgentRec ++ [0, 0, 0, 0] ++ povEventRec

/-- The decoded form of `c9Input`: the POV is the decoded agent. -/
def c9Enc : Encounter :=
  { header := demoHeader, agents := [demoAgent]
  , skills := { data := [], cap := 0 }
  , combat_log := { data := [povEvent], cap := 1 }
  , pov := some demoAgent }

/-- A 16-byte header whose version bytes `[255, 65, ..]` are not valid
UTF-8. -/
def badVersionHeader : List Nat :=
  [69, 86, 84, 67] ++ [255, 65, 65, 65, 65, 65, 65, 65] ++ [1] ++ [0, 0] ++ [0]

/-! Shared helper lemmas. -/

/-- Bind on a success value reduces to the continuation. -/
theorem bind_ok {ε α β : Type} (a : α) (f : α → Except ε β) :
    (Except.ok a >>= f : Except ε β) = f a := rfl

/-- Bind on an error propagates the error. -/
theorem bind_error {ε α β : Type} (err : ε) (f : α → Except ε β) :
    ((Except.error err : Except ε α) >>= f) = Except.error err := rfl

/-- Inversion of a successful bind. -/
theorem bind_ok_iff {ε α β : Type} (x : Except ε α) (f : α → Except ε β) (v : β) :
    (x >>= f) = .ok v ↔ ∃ a, x = .ok a ∧ f a = .ok v := by
  cases x with
  | error e =>
    constructor
    · intro h; exact Except.noConfusion h
    · rintro ⟨a, ha, -⟩; exact Except.noConfusion ha
  | ok a =>
    constructor
    · intro h; exact ⟨a, rfl, h⟩
    · rintro ⟨a2, ha, hf⟩; cases ha; exact hf

/-- A 96-byte record whose per-record step yields nothing contributes no
agent: the loop reads past it and continues. -/
theorem read_agents_skip (block rest : List Nat) (n : Nat) (hlen : block.length = 96)
    (h : processAgent (parseEvtcAgent block) = Option.none) :
    read_agents (n + 1) (block ++ rest) = read_agents n rest := by
  have h96 : 96 ≤ (block ++ rest).length := by
    rw [List.length_append, hlen]; exact Nat.le_add_right 96 rest.length
  have hre : readExact 96 (block ++ rest) = .ok (block, rest) := by
    unfold readExact
    rw [List.take_left' hlen, List.drop_left' hlen, if_pos h96]
  conv_lhs => rw [read_agents]
  rw [hre, bind_ok]
  simp only [h]
  cases read_agents n rest with
  | ok p => rfl
  | error e => rfl

/-- `read_agents` over a concatenation of 96-byte blocks decodes each
block in order and keeps exactly the records the per-record step keeps. -/
theorem read_agents_blocks (blocks : List (List Nat)) (tail : List Nat)
    (h : ∀ bl ∈ blocks, bl.length = 96) :
    read_agents blocks.length (blocks.flatten ++ tail)
      = .ok ((blocks.map parseEvtcAgent).filterMap processAgent, tail) := by
  induction blocks with
  | nil => rfl
  | cons bl bls ih =>
    have hbl : bl.length = 96 := h bl (List.mem_cons_self bl bls)
    have hrest : ∀ b ∈ bls, b.length = 96 := fun b hb => h b (List.mem_cons_of_mem bl hb)
    have h96 : 96 ≤ (bl ++ (bls.flatten ++ tail)).length := by
      rw [List.length_append, hbl]; exact Nat.le_add_right 96 _
    have hre : readExact 96 (bl ++ (bls.flatten ++ tail)) = .ok (bl, bls.flatten ++ tail) := by
      unfold readExact
      rw [List.take_left' hbl, List.drop_left' hbl, if_pos h96]
    have hjoin : (bl :: bls).flatten ++ tail = bl ++ (bls.flatten ++ tail) := by
      simp [List.append_assoc]
    simp only [List.length_cons]
    rw [hjoin]
    conv_lhs => rw [read_agents]
    simp only [hre, bind_ok]
    simp only [ih hrest, bind_ok]
    cases hpa : processAgent (parseEvtcAgent bl) with
    | none => simp [List.map_cons, List.filterMap_cons, hpa]
    | some a => simp [List.map_cons, List.filterMap_cons, hpa]

/-- `chunkEvents` yields exactly `n` events. -/
theorem chunkEvents_length (n : Nat) (bs : List Nat) : (chunkEvents n bs).length = n := by
  induction n generalizing bs with
  | zero => rfl
  | succ m ih => simp [chunkEvents, ih]

/-- An agent returned by `find_pov` is an element of the agent list. -/
theorem find_pov_mem (evts : List CbtEvent) (agents : List Agent) (a : Agent)
    (h : find_pov evts agents = some a) : a ∈ agents := by
  induction evts with
  | nil => simp [find_pov] at h
  | cons evt rest ih =>
    rw [find_pov] at h
    split at h
    · exact List.mem_of_find?_eq_some h
    · exact ih h

/-- The `pov` field of a decoded encounter is the `find_pov` scan of its
own events and agents. -/
theorem read_encounter_shape (bs : List Nat) (e : Encounter)
    (h : read_encounter bs = .ok e) :
    e.pov = find_pov e.combat_log.data e.agents := by
  unfold read_encounter at h
  rw [bind_ok_iff] at h
  obtain ⟨⟨hd, r1⟩, h1, h⟩ := h
  rw [bind_ok_iff] at h
  obtain ⟨⟨ac, r2⟩, h2, h⟩ := h
  rw [bind_ok_iff] at h
  obtain ⟨⟨ags, r3⟩, h3, h⟩ := h
  rw [bind_ok_iff] at h
  obtain ⟨⟨sc, r4⟩, h4, h⟩ := h
  rw [bind_ok_iff] at h
  obtain ⟨⟨sk, r5⟩, h5, h⟩ := h
  rw [bind_ok_iff] at h
  obtain ⟨⟨cl, r6⟩, h6, h⟩ := h
  cases h
  rfl

/-! Claim theorems. -/

/-- Claim C5: a raw agent record whose `elite_or_sentinel` (`is_elite`)
field equals `0xFFFFFFFF` never contributes an agent to the decoded list
(it is silently dropped, not an error), and an agent count of 0 yields
the empty agent list rather than a failure. -/
theorem read_agents_sentinel_and_zero :
    (∀ bs : List Nat, read_agents 0 bs = .ok ([], bs))
    ∧ (∀ raw : EvtcAgent, raw.is_elite = 4294967295 → processAgent raw = Option.none)
    ∧ (∀ (block rest : List Nat) (n : Nat), block.length = 96 →
        (parseEvtcAgent block).is_elite = 4294967295 →
        read_agents (n + 1) (block ++ rest) = read_agents n rest) := by
  refine ⟨fun bs => rfl, fun raw hraw => ?_, fun block rest n hlen hsent => ?_⟩
  · simp [processAgent, hraw]
  · exact read_agents_skip block rest n hlen (by simp [processAgent, hsent])

/-- Witness for C5 at concrete inputs: a zero count leaves any bytes
untouched, and a concrete sentinel record is skipped. -/
theorem read_agents_sentinel_and_zero_witness :
    read_agents 0 [1, 2, 3] = .ok ([], [1, 2, 3])
    ∧ processAgent (parseEvtcAgent sentinelAgentRec) = Option.none
    ∧ read_agents 1 (sentinelAgentRec ++ [7]) = read_agents 0 [7] := by
  refine ⟨read_agents_sentinel_and_zero.1 [1, 2, 3],
    read_agents_sentinel_and_zero.2.1 (parseEvtcAgent sentinelAgentRec) (by decide),
    read_agents_sentinel_and_zero.2.2 sentinelAgentRec [7] 0 (by decide) (by decide)⟩

/-- Claim C6: an event tail whose byte length is not a multiple of the
64-byte event record fails with `MalformedEventLog`; an exact multiple
decodes the whole tail into length/64 events. -/
theorem read_log_spec :
    (∀ bs : List Nat, bs.length % 64 ≠ 0 → read_log bs = .error .malformedEventLog)
    ∧ (∀ bs : List Nat, bs.length % 64 = 0 →
        ∃ evts : List CbtEvent,
          read_log bs = .ok ({ data := evts, cap := bs.length / 64 }, [])
          ∧ evts.length = bs.length / 64) := by
  constructor
  · intro bs h
    unfold read_log
    rw [if_pos h]
  · intro bs h
    refine ⟨chunkEvents (bs.length / 64) bs, ?_, chunkEvents_length _ _⟩
    unfold read_log
    rw [if_neg (by simp [h])]

/-- Witness for C6 at concrete inputs: 65 bytes fail, 64 bytes decode into
one event. -/
theorem read_log_spec_witness :
    read_log (List.replicate 65 0) = .error .malformedEventLog
    ∧ ∃ evts : List CbtEvent,
        read_log (List.replicate 64 0) = .ok ({ data := evts, cap := 1 }, [])
        ∧ evts.length = 1 := by
  constructor
  · exact read_log_spec.1 (List.replicate 65 0) (by decide)
  · have h := read_log_spec.2 (List.replicate 64 0) (by decide)
    rw [show (List.replicate 64 (0 : Nat)).length / 64 = 1 from by decide] at h
    exact h

/-- Claim C7 counterexample: the 4-byte input `XXXX` has a wrong magic in
its first 4 bytes, yet decoding fails with the truncation error, not
`BadMagic`. -/
theorem short_bad_magic_not_badMagic :
    read_encounter [88, 88, 88, 88] = .error .truncatedInput
    ∧ DecodeError.truncatedInput ≠ DecodeError.badMagic := ⟨rfl, by decide⟩

/-- Claim C7 amended: every input containing a full 16-byte header whose
first 4 bytes differ from the `EVTC` magic fails with `BadMagic`,
regardless of the remaining content. -/
theorem bad_magic_fails : ∀ bs : List Nat, 16 ≤ bs.length →
    bs.take 4 ≠ [69, 86, 84, 67] → read_encounter bs = .error .badMagic := by
  intro bs hlen hmagic
  have hre : readExact 16 bs = .ok (bs.take 16, bs.drop 16) := by
    unfold readExact
    rw [if_pos hlen]
  have ht : (bs.take 16).take 4 = bs.take 4 := by
    rw [List.take_take]
    norm_num
  have hh : read_header bs = .error .badMagic := by
    unfold read_header
    simp only [hre, bind_ok]
    rw [ht, if_pos hmagic]
  unfold read_encounter
  rw [hh, bind_error]

/-- Witness for the amended C7 at a concrete input of 16 wrong bytes. -/
theorem bad_magic_fails_witness :
    read_encounter (List.replicate 16 88) = .error .badMagic :=
  bad_magic_fails (List.replicate 16 88) (by decide) (by decide)

/-- Claim C10: `read_agents` preserves the file order of the raw records:
when a player record `ab` precedes a player record `bb` in the byte
stream, the agent decoded from `ab` precedes the agent decoded from `bb`
in the resulting list. -/
theorem read_agents_order : ∀ (p q r : List (List Nat)) (ab bb tail : List Nat) (A B : Agent),
    (∀ bl ∈ p, bl.length = 96) → (∀ bl ∈ q, bl.length = 96) → (∀ bl ∈ r, bl.length = 96) →
    ab.length = 96 → bb.length = 96 →
    processAgent (parseEvtcAgent ab) = some A →
    processAgent (parseEvtcAgent bb) = some B →
    read_agents (p.length + 1 + (q.length + 1 + r.length))
        ((p ++ [ab] ++ q ++ [bb] ++ r).flatten ++ tail)
      = .ok ((p.map parseEvtcAgent).filterMap processAgent
          ++ A :: ((q.map parseEvtcAgent).filterMap processAgent
            ++ B :: (r.map parseEvtcAgent).filterMap processAgent), tail) := by
  intro p q r ab bb tail A B hp hq hr hab hbb hA hB
  have hall : ∀ bl ∈ (p ++ [ab] ++ q ++ [bb] ++ r), bl.length = 96 := by
    intro bl hbl
    simp only [List.mem_append, List.mem_singleton] at hbl
    rcases hbl with ((((h | h) | h) | h) | h)
    · exact hp bl h
    · rw [h]; exact hab
    · exact hq bl h
    · rw [h]; exact hbb
    · exact hr bl h
  have hlen : (p ++ [ab] ++ q ++ [bb] ++ r).length
      = p.length + 1 + (q.length + 1 + r.length) := by
    simp only [List.length_append, List.length_singleton]
    omega
  have hmain := read_agents_blocks (p ++ [ab] ++ q ++ [bb] ++ r) tail hall
  rw [hlen] at hmain
  rw [hmain]
  simp [List.map_append, List.filterMap_append, List.filterMap_cons, hA, hB]

/-- Witness for C10 at two concrete player records. -/
theorem read_agents_order_witness :
    read_agents 2 (([] ++ [goodAgentRec] ++ [] ++ [goodAgentRec2] ++ []).flatten ++ [7])
      = .ok ([demoAgent, demoAgent2], [7]) := by
  have h := read_agents_order [] [] [] goodAgentRec goodAgentRec2 [7] demoAgent demoAgent2
    (by simp) (by simp) (by simp) (by decide) (by decide) (by decide) (by decide)
  simpa using h

/-- Claim C4: POV resolution scans the events in stored order; at the
first event carrying the PointOfView code it returns the first agent
whose address equals that event source agent; it returns none when no
such event exists or when no agent matches; and a decoded encounter
always carries exactly this scan result, so absence of a POV never fails
the decode. -/
theorem find_pov_spec :
    (∀ (pre post : List CbtEvent) (evt : CbtEvent) (agents : List Agent),
        (∀ e ∈ pre, e.is_statechange ≠ CbtStateChange.pointOfView.code) →
        evt.is_statechange = CbtStateChange.pointOfView.code →
        find_pov (pre ++ evt :: post) agents
          = agents.find? (fun a => a.addr == evt.src_agent))
    ∧ (∀ (evts : List CbtEvent) (agents : List Agent),
        (∀ e ∈ evts, e.is_statechange ≠ CbtStateChange.pointOfView.code) →
        find_pov evts agents = Option.none)
    ∧ (∀ (pre post : List CbtEvent) (evt : CbtEvent) (agents : List Agent),
        (∀ e ∈ pre, e.is_statechange ≠ CbtStateChange.pointOfView.code) →
        evt.is_statechange = CbtStateChange.pointOfView.code →
        (∀ a ∈ agents, a.addr ≠ evt.src_agent) →
        find_pov (pre ++ evt :: post) agents = Option.none)
    ∧ (∀ (bs : List Nat) (e : Encounter), read_encounter bs = .ok e →
        e.pov = find_pov e.combat_log.data e.agents) := by
  have part1 : ∀ (pre post : List CbtEvent) (evt : CbtEvent) (agents : List Agent),
      (∀ e ∈ pre, e.is_statechange ≠ CbtStateChange.pointOfView.code) →
      evt.is_statechange = CbtStateChange.pointOfView.code →
      find_pov (pre ++ evt :: post) agents
        = agents.find? (fun a => a.addr == evt.src_agent) := by
    intro pre post evt agents hpre hevt
    induction pre with
    | nil =>
      rw [List.nil_append, find_pov, if_pos hevt]
    | cons e0 rest ih =>
      rw [List.cons_append, find_pov, if_neg (hpre e0 (List.mem_cons_self _ _))]
      exact ih fun e he => hpre e (List.mem_cons_of_mem _ he)
  have part2 : ∀ (evts : List CbtEvent) (agents : List Agent),
      (∀ e ∈ evts, e.is_statechange ≠ CbtStateChange.pointOfView.code) →
      find_pov evts agents = Option.none := by
    intro evts agents hall
    induction evts with
    | nil => rfl
    | cons e0 rest ih =>
      rw [find_pov, if_neg (hall e0 (List.mem_cons_self _ _))]
      exact ih fun e he => hall e (List.mem_cons_of_mem _ he)
  refine ⟨part1, part2, fun pre post evt agents hpre hevt hnone => ?_,
    read_encounter_shape⟩
  rw [part1 pre post evt agents hpre hevt]
  rw [List.find?_eq_none]
  intro a ha
  simp only [beq_iff_eq]
  exact hnone a ha

set_option maxRecDepth 4000 in
/-- Witness for C4 at a concrete POV event and agent list, and at a fully
decoded concrete file. -/
theorem find_pov_spec_witness :
    find_pov [povEvent] [demoAgent]
      = [demoAgent].find? (fun a => a.addr == povEvent.src_agent)
    ∧ c9Enc.pov = find_pov c9Enc.combat_log.data c9Enc.agents := by
  constructor
  · exact find_pov_spec.1 [] [] povEvent [demoAgent] (by simp) (by decide)
  · exact find_pov_spec.2.2.2 c9Input c9Enc rfl

/-- Claim C9: whenever a successfully decoded encounter has a POV, the
POV is a value equal to an element of the decoded agents list. -/
theorem pov_mem_agents : ∀ (bs : List Nat) (e : Encounter) (a : Agent),
    read_encounter bs = .ok e → e.pov = some a → a ∈ e.agents := by
  intro bs e a hdec hpov
  rw [read_encounter_shape bs e hdec] at hpov
  exact find_pov_mem _ _ _ hpov

set_option maxRecDepth 4000 in
/-- Witness for C9 at a concrete file with one agent and one POV event. -/
theorem pov_mem_agents_witness : demoAgent ∈ c9Enc.agents :=
  pov_mem_agents c9Input c9Enc demoAgent rfl rfl

set_option maxRecDepth 4000 in
/-- Claim C1 counterexample: a file whose only agent record has an
invalid UTF-8 character-name segment decodes successfully — the decode is
not aborted and an `Encounter` is returned, with that agent skipped. -/
theorem invalid_text_not_fatal :
    read_encounter c1Input = .ok c1Enc
    ∧ c1Enc.agents = []
    ∧ utf8Decode (segHead (parseEvtcAgent badNameAgentRec).name) = Option.none :=
  ⟨rfl, rfl, rfl⟩

/-- Claim C1 amended: an agent record whose character-name, account-name
or subgroup segment is not valid UTF-8 is silently skipped by the agent
loop; decoding continues on the remaining records. -/
theorem invalid_text_skips_agent : ∀ (block rest : List Nat) (n : Nat), block.length = 96 →
    (utf8Decode (segHead (parseEvtcAgent block).name) = Option.none
      ∨ utf8Decode (segHead (segTail (parseEvtcAgent block).name)) = Option.none
      ∨ utf8Decode (segHead (segTail (segTail (parseEvtcAgent block).name))) = Option.none) →
    read_agents (n + 1) (block ++ rest) = read_agents n rest := by
  intro block rest n hlen hbad
  apply read_agents_skip block rest n hlen
  by_cases hne : (parseEvtcAgent block).is_elite ≠ 4294967295
  · have herr : agentTryFrom (parseEvtcAgent block) = .error .invalidText := by
      unfold agentTryFrom
      rw [if_pos hne]
      rcases hbad with hb | hb | hb
      · simp [hb]
      · cases h1 : utf8Decode (segHead (parseEvtcAgent block).name) with
        | none => simp [h1]
        | some cn => simp [h1, hb]
      · cases h1 : utf8Decode (segHead (parseEvtcAgent block).name) with
        | none => simp [h1]
        | some cn =>
          cases h2 : utf8Decode (segHead (segTail (parseEvtcAgent block).name)) with
          | none => simp [h1, h2]
          | some an => simp [h1, h2, hb]
    simp [processAgent, hne, herr, Except.toOption]
  · simp [processAgent, hne]

/-- Witness for the amended C1: a concrete bad-name record followed by
arbitrary bytes is skipped. -/
theorem invalid_text_skips_agent_witness :
    read_agents 1 (badNameAgentRec ++ [7]) = read_agents 0 [7] :=
  invalid_text_skips_agent badNameAgentRec [7] 0 (by decide) (Or.inl (by decide))

set_option maxRecDepth 4000 in
/-- Claim C2 counterexample: on a concrete decoded encounter with one
skill and one event, `shrink` keeps both capacities at 1 — the backing
storage is not released. -/
theorem shrink_retains_capacity :
    read_encounter c2Input = .ok c2Enc
    ∧ c2Enc.skills.data ≠ [] ∧ c2Enc.combat_log.data ≠ []
    ∧ c2Enc.shrink.skills.cap = 1 ∧ c2Enc.shrink.combat_log.cap = 1
    ∧ (1 : Nat) ≠ 0 :=
  ⟨rfl, by decide, by decide, rfl, rfl, by decide⟩

/-- Claim C2 amended: on every decoded encounter with non-empty skills
and combat log, `shrink` empties both collections and leaves header,
agents and pov unchanged, but retains the backing capacities instead of
releasing them. -/
theorem shrink_empties_keeps_capacity : ∀ (bs : List Nat) (e : Encounter),
    read_encounter bs = .ok e →
    e.skills.data ≠ [] → e.combat_log.data ≠ [] →
    e.shrink.skills.data = [] ∧ e.shrink.combat_log.data = []
    ∧ e.shrink.header = e.header ∧ e.shrink.agents = e.agents ∧ e.shrink.pov = e.pov
    ∧ e.shrink.skills.cap = e.skills.cap ∧ e.shrink.combat_log.cap = e.combat_log.cap := by
  intro bs e hdec hsk hcl
  exact ⟨rfl, rfl, rfl, rfl, rfl, rfl, rfl⟩

set_option maxRecDepth 4000 in
/-- Witness for the amended C2 at the concrete decoded encounter. -/
theorem shrink_empties_keeps_capacity_witness :
    c2Enc.shrink.skills.data = [] ∧ c2Enc.shrink.combat_log.data = []
    ∧ c2Enc.shrink.header = c2Enc.header ∧ c2Enc.shrink.agents = c2Enc.agents
    ∧ c2Enc.shrink.pov = c2Enc.pov
    ∧ c2Enc.shrink.skills.cap = c2Enc.skills.cap
    ∧ c2Enc.shrink.combat_log.cap = c2Enc.combat_log.cap :=
  shrink_empties_keeps_capacity c2Input c2Enc rfl (by decide) (by decide)

/-- Claim C3 counterexample: an account segment `::B` decodes to `B`
(both leading colons removed), not to `:B` (all but the first colon
kept) as the claim states. -/
theorem double_colon_account :
    (agentTryFrom doubleColonRec).map (fun a => a.account_name) = .ok [66]
    ∧ ([66] : List Nat) ≠ [58, 66] :=
  ⟨rfl, by decide⟩

/-- Claim C3 amended: `account_name` is the UTF-8 decoding of the bytes
between the first and second null of the name buffer, with ALL leading
colons removed (a segment starting with two colons loses both). -/
theorem account_name_strips_all_colons : ∀ (raw : EvtcAgent) (a : Agent),
    agentTryFrom raw = .ok a →
    a.account_name
      = ((utf8Decode (segHead (segTail raw.name))).getD []).dropWhile (· == 58) := by
  intro raw a h
  unfold agentTryFrom at h
  by_cases hne : raw.is_elite ≠ 4294967295
  · rw [if_pos hne] at h
    cases h1 : utf8Decode (segHead raw.name) with
    | none => simp [h1] at h
    | some cn =>
      cases h2 : utf8Decode (segHead (segTail raw.name)) with
      | none => simp [h1, h2] at h
      | some an =>
        cases h3 : utf8Decode (segHead (segTail (segTail raw.name))) with
        | none => simp [h1, h2, h3] at h
        | some sg =>
          rw [h1, h2, h3] at h
          simp only [Except.ok.injEq] at h
          subst h
          simp [h2]
  · rw [if_neg hne] at h
    exact absurd h (by simp)

/-- Witness for the amended C3 at the concrete double-colon record,
whose decoded agent is `demoAgent`. -/
theorem account_name_strips_all_colons_witness :
    (demoAgent : Agent).account_name
      = ((utf8Decode (segHead (segTail doubleColonRec.name))).getD []).dropWhile (· == 58) :=
  account_name_strips_all_colons doubleColonRec demoAgent rfl

/-- Claim C8 counterexample: for non-UTF-8 version bytes the header
version is the empty string, not the lossy decoding of those bytes
(which would keep the valid tail and replace the bad byte by U+FFFD). -/
theorem version_not_lossy :
    (read_header badVersionHeader).map (fun p => p.1.version) = .ok []
    ∧ utf8LossyDecodeSpec [255, 65, 65, 65, 65, 65, 65, 65]
        = [65533, 65, 65, 65, 65, 65, 65, 65]
    ∧ ([] : List Nat) ≠ [65533, 65, 65, 65, 65, 65, 65, 65] :=
  ⟨rfl, rfl, by decide⟩

/-- Claim C8 amended: the header version field is the UTF-8 decoding of
the 8 raw version bytes when they are valid UTF-8, and the empty string
otherwise (never an error, but not the lossy decoding either). -/
theorem version_utf8_or_empty : ∀ (bs : List Nat) (hd : Header) (rest : List Nat),
    read_header bs = .ok (hd, rest) →
    hd.version = (utf8Decode ((bs.drop 4).take 8)).getD [] := by
  intro bs hd rest h
  unfold read_header at h
  by_cases hlen : 16 ≤ bs.length
  · have hre : readExact 16 bs = .ok (bs.take 16, bs.drop 16) := by
      unfold readExact
      rw [if_pos hlen]
    rw [hre] at h
    simp only [bind_ok] at h
    by_cases hmag : (bs.take 16).take 4 ≠ [69, 86, 84, 67]
    · rw [if_pos hmag] at h
      exact absurd h (by simp)
    · rw [if_neg hmag] at h
      simp only [Except.ok.injEq, Prod.mk.injEq] at h
      rw [← h.1]
      have hseg : ((bs.take 16).drop 4).take 8 = (bs.drop 4).take 8 := by
        rw [List.drop_take, List.take_take]
        norm_num
      rw [hseg]
  · have hre : readExact 16 bs = .error .truncatedInput := by
      unfold readExact
      rw [if_neg hlen]
    rw [hre] at h
    exact absurd h (by simp [bind_error])

/-- Witness for the amended C8 at the concrete well-formed header. -/
theorem version_utf8_or_empty_witness :
    demoHeader.version = (utf8Decode ((headerBytes.drop 4).take 8)).getD [] :=
  version_utf8_or_empty headerBytes demoHeader [] rfl

end Revtc
